import Mathlib

/-!
Shallow embedding of the two logic units of the repository's single source
file `src/App.tsx`:

* the **Submission Controller** (`ProvisionForm`): two regex-validated input
  fields, a guarded submit handler that POSTs to a Lambda URL and maps the
  response into a success/error notice;
* the **Estimate Aggregator** (pricing-calculator `App`): lenient numeric
  coercion `toNumber`, the two-source exchange-rate fetch `getUsdJpyRate`
  with a static fallback of 150, and the upload handler `handleFile`.

Conventions of the embedding:

* Strings are Lean `String`s (lists of characters); the two JavaScript
  regexes are embedded as executable matchers with the regexes' anchored
  backtracking semantics.
* JavaScript numbers are modelled as exact rationals `ℚ`; `NaN` is
  `Option.none` where it can arise.  No claim depends on binary floating
  point rounding or overflow.
* The effect of `fetch` is a parameter of the handler: an inductive value
  describing the outcome the network would produce.  A field
  `request : Option _` in the result records whether the handler reached
  the network call at all, and with which body.
* React `setX` state updates become functional record updates on an
  explicit state record.
-/

/-! ### Submission Controller: state and notices -/

/-- The field `message.type` in `ProvisionForm`: `'success' | 'error'`. -/
inductive MsgType where
  | success
  | error
deriving DecidableEq, Repr

/-- The `message` state: `{ type: 'success' | 'error'; text: string }`. -/
structure Message where
  type : MsgType
  text : String
deriving DecidableEq, Repr

/-- The component-local state of `ProvisionForm`:
`instanceName`, `email`, `isSubmitting`, `message`. -/
structure FormState where
  instanceName : String
  email : String
  isSubmitting : Bool
  message : Option Message
deriving DecidableEq, Repr

/-! ### Validation (`NAME_REGEX`, `EMAIL_REGEX`) -/

/-- The character class `[A-Za-z0-9-]` of `NAME_REGEX`. -/
def nameCharOk (c : Char) : Bool :=
  ('A' ≤ c && c ≤ 'Z') || ('a' ≤ c && c ≤ 'z') || ('0' ≤ c && c ≤ '9') || c = '-'

/-- Embedding of `NAME_REGEX = /^[A-Za-z0-9-]{3,32}$/` applied with `.test`:
the whole string is 3 to 32 repetitions of the class. -/
def isValidName (s : String) : Bool :=
  decide (3 ≤ s.data.length) && decide (s.data.length ≤ 32) && s.data.all nameCharOk

/-- The ECMAScript `\s` class: WhiteSpace ∪ LineTerminator. -/
def jsWhitespace (c : Char) : Bool :=
  c = ' ' || c = '\t' || c = '\n' || c = '\u000B' || c = '\u000C' || c = '\r' ||
  c = '\u00A0' || c = '\u1680' || ('\u2000' ≤ c && c ≤ '\u200A') ||
  c = '\u2028' || c = '\u2029' || c = '\u202F' || c = '\u205F' ||
  c = '\u3000' || c = '\uFEFF'

/-- JavaScript String.prototype.trim: remove leading and trailing
characters of the same WhiteSpace ∪ LineTerminator class. -/
def jsTrim (s : String) : String :=
  String.mk (((s.data.dropWhile jsWhitespace).reverse.dropWhile jsWhitespace).reverse)

/-- The character class `[^@\s]` of `EMAIL_REGEX`. -/
def emailCharOk (c : Char) : Bool :=
  !(c = '@' || jsWhitespace c)

/-- Backtracking matcher for `p+` followed by whatever `k` accepts
(the translation of a regex `class+` node in continuation style). -/
def plusThen (p : Char → Bool) (k : List Char → Bool) : List Char → Bool
  | [] => false
  | c :: rest => p c && (k rest || plusThen p k rest)

/-- Matcher for a literal character followed by whatever `k` accepts. -/
def litThen (a : Char) (k : List Char → Bool) : List Char → Bool
  | [] => false
  | c :: rest => c = a && k rest

/-- Embedding of the regex `/^[^@\s]+@[^@\s]+\.[^@\s]+$/` (EMAIL_REGEX) applied with `.test`:
the anchored concatenation `[^@\s]+ '@' [^@\s]+ '.' [^@\s]+`. -/
def isValidEmail (s : String) : Bool :=
  plusThen emailCharOk
    (litThen '@'
      (plusThen emailCharOk
        (litThen '.'
          (plusThen emailCharOk List.isEmpty)))) s.data

/-- Derivation `isFormValid = isValidName && isValidEmail` over the current fields. -/
def isFormValid (st : FormState) : Bool :=
  isValidName st.instanceName && isValidEmail st.email

/-! ### Submission Controller: the submit handler -/

/-- The module constant `LAMBDA_URL` as shipped (still the placeholder). -/
def LAMBDA_URL : String := "https://YOUR_ACTUAL_LAMBDA_FUNCTION_URL_HERE"

/-- The sentinel `PLACEHOLDER_URL_CHECK` compared against `LAMBDA_URL`. -/
def PLACEHOLDER_URL_CHECK : String := "https://YOUR_ACTUAL_LAMBDA_FUNCTION_URL_HERE"

/-- The JSON body of the POST: `{ instanceName, requesterEmail }`. -/
structure ReqBody where
  instanceName : String
  requesterEmail : String
deriving DecidableEq, Repr

/-- The parsed response body as the handler reads it: a truthy `ok` flag,
and the optional `executionId` / `error` string fields. -/
structure RespData where
  ok : Bool
  executionId : Option String
  error : Option String
deriving DecidableEq, Repr

/-- Outcome the network produces for the single `fetch`:
either a response with HTTP-success flag `httpOk` (`response.ok`) whose body
parses to `some data` (with `none` when `response.json()` rejects), or a
rejected `fetch` carrying the exception's description. -/
inductive FetchOutcome where
  | response (httpOk : Bool) (body : Option RespData)
  | netError (desc : String)
deriving DecidableEq, Repr

/-- Result of one `handleSubmit` invocation: the final component state, the
request body actually sent over the network (`none` when no network call was
made), and what `console.error` received in the catch branch, if reached. -/
structure SubmitResult where
  state : FormState
  request : Option ReqBody
  consoleErr : Option String
deriving DecidableEq, Repr

/-- The configuration-error notice text. -/
def configErrorText : String :=
  "❌ 設定エラー: Lambda 関数 URL がコードに設定されていません。ProvisionForm.tsxを確認してください。"

/-- Success notice: `` `✅ リクエストが正常に開始されました。承認ID: ${data.executionId}。` ``.
A missing `executionId` renders as the JavaScript marker `"undefined"`. -/
def successText (executionId : Option String) : String :=
  "✅ リクエストが正常に開始されました。承認ID: " ++ executionId.getD "undefined" ++ "。"

/-- Failure notice: `` `❌ リクエスト失敗: ${data.error || '不明なサーバーエラー'}` ``.
`||` falls back on a missing or empty (falsy) `error` field. -/
def failureText (error : Option String) : String :=
  "❌ リクエスト失敗: " ++
    (match error with
     | some e => if e = "" then "不明なサーバーエラー" else e
     | none => "不明なサーバーエラー")

/-- Catch-branch notice (a fixed string; the exception itself only goes to
`console.error`). -/
def networkErrorText : String :=
  "ネットワークエラーが発生しました。コンソールを確認してください。"

/-- The `handleSubmit` handler of `ProvisionForm`, with the module constant
`LAMBDA_URL` as the `lambdaUrl` parameter (a deploy-time configuration value)
and the network's behaviour as the `outcome` parameter. -/
def handleSubmit (lambdaUrl : String) (outcome : FetchOutcome) (st : FormState) :
    SubmitResult :=
  if !(isFormValid st) || st.isSubmitting then
    { state := st, request := none, consoleErr := none }
  else
    let st := { st with isSubmitting := true, message := none }
    if lambdaUrl = "" || lambdaUrl = PLACEHOLDER_URL_CHECK then
      { state := { st with
          message := some { type := .error, text := configErrorText },
          isSubmitting := false },
        request := none, consoleErr := none }
    else
      let req : ReqBody :=
        { instanceName := jsTrim st.instanceName, requesterEmail := jsTrim st.email }
      match outcome with
      | .response httpOk (some data) =>
        if httpOk && data.ok then
          { state := { st with
              message := some { type := .success, text := successText data.executionId },
              instanceName := "", email := "", isSubmitting := false },
            request := some req, consoleErr := none }
        else
          { state := { st with
              message := some { type := .error, text := failureText data.error },
              isSubmitting := false },
            request := some req, consoleErr := none }
      | .response _ none =>
        { state := { st with
            message := some { type := .error, text := networkErrorText },
            isSubmitting := false },
          request := some req, consoleErr := some "response.json rejected" }
      | .netError desc =>
        { state := { st with
            message := some { type := .error, text := networkErrorText },
            isSubmitting := false },
          request := some req, consoleErr := some desc }

/-! ### Estimate Aggregator: lenient numeric coercion `toNumber` -/

/-- The character class `[\d.-]` kept by `String(v).replace(/[^\d.-]/g, "")`. -/
def amountCharOk (c : Char) : Bool :=
  c.isDigit || c = '.' || c = '-'

/-- Embedding of `.replace(/[^\d.-]/g, "")`: delete every character outside `[\d.-]`. -/
def stripNonAmount (s : String) : String :=
  String.mk (s.data.filter amountCharOk)

/-- Value of a digit run (most significant first). -/
def digitsValNat (l : List Char) : Nat :=
  l.foldl (fun a c => 10 * a + (c.toNat - 48)) 0

/-- Semantics of `Number(s)` for a string over the alphabet `[\d.-]` (the only strings the
handler feeds it): an optional leading `-`, then `Digits`, `Digits . Digits?`
or `. Digits`; everything else (and a bare `-` or `.`) is `NaN = none`.
The empty string is `0`, as in JavaScript. -/
def parseUnsigned (l : List Char) : Option ℚ :=
  let intPart := l.takeWhile Char.isDigit
  let rest := l.dropWhile Char.isDigit
  match rest with
  | [] => if intPart.isEmpty then none else some (digitsValNat intPart : ℚ)
  | '.' :: frac =>
    if frac.all Char.isDigit then
      if intPart.isEmpty && frac.isEmpty then none
      else some ((digitsValNat intPart : ℚ) + (digitsValNat frac : ℚ) / 10 ^ frac.length)
    else none
  | _ => none

/-- Semantics of `Number` applied to the stripped string; `none` models `NaN`. -/
def jsStringToNumber (s : String) : Option ℚ :=
  match s.data with
  | [] => some 0
  | '-' :: rest => (parseUnsigned rest).map Neg.neg
  | l => parseUnsigned l

/-- Embedding of `const toNumber = (v) => Number(String(v ?? "").replace(/[^\d.-]/g, "")) || 0`.
The argument is the (optional) string field as it occurs in the document;
`v ?? ""` is `Option.getD ""`, and `|| 0` maps `NaN` (and `0` itself) to `0`. -/
def toNumber (v : Option String) : ℚ :=
  (jsStringToNumber (stripNonAmount (v.getD ""))).getD 0

/-! ### Estimate Aggregator: the rate fetch `getUsdJpyRate` -/

/-- One rate-source attempt as `getUsdJpyRate` observes it:
the `fetch` rejects, the HTTP status is not ok, `r.json()` rejects, or a
body from which `Number(d?.rates?.JPY)` yields `fx` (`none` models `NaN`,
from a missing or non-numeric field). -/
inductive RateAttempt where
  | netError
  | httpFail
  | jsonError
  | value (fx : Option ℚ)
deriving DecidableEq, Repr

/-- What one `try` block of `getUsdJpyRate` returns early, if anything:
`some fx` exactly when `r.ok`, the body parsed, and `if (fx)` held
(`fx` neither `NaN` nor `0`). -/
def attemptRate : RateAttempt → Option ℚ
  | .value (some q) => if q = 0 then none else some q
  | _ => none

/-- Embedding of `getUsdJpyRate`, with the two sources' behaviour as parameters `a1`
(frankfurter.app, tried first) and `a2` (open.er-api.com, tried second).
The Bool records whether the `console.warn` fallback diagnostic ran. -/
def getUsdJpyRate (a1 a2 : RateAttempt) : ℚ × Bool :=
  match attemptRate a1 with
  | some q => (q, false)
  | none =>
    match attemptRate a2 with
    | some q => (q, false)
    | none => (150, true)

/-! ### Estimate Aggregator: the upload handler `handleFile` -/

/-- One `ServiceItem` of the document: the optional `サービス名` and the
optional nested cost string `サービスのコスト.毎月`. -/
structure ServiceItem where
  serviceName : Option String
  monthlyCost : Option String
deriving DecidableEq, Repr

/-- The parsed `CalcJSON` document: `名前`, the nested `合計コスト.毎月`,
and the nested list `グループ.サービス` (`none` when either level of the
optional chain is absent). -/
structure CalcJSON where
  name : Option String
  totalMonthly : Option String
  services : Option (List ServiceItem)
deriving DecidableEq, Repr

/-- A display `Row = { name, usd, jpy }`. -/
structure Row where
  name : String
  usd : ℚ
  jpy : ℚ
deriving DecidableEq, Repr

/-- The aggregator component's state: `name`, `rate`, `totalUsd`, `totalJpy`,
`rows`, `raw`. -/
structure AggState where
  name : String
  rate : Option ℚ
  totalUsd : Option ℚ
  totalJpy : Option ℚ
  rows : List Row
  raw : Option CalcJSON
deriving DecidableEq, Repr

/-- Embedding of `handleFile`, with the outcome of `JSON.parse` as the `parsed` parameter
(`Except.error` when the text is not valid JSON, in which case the thrown
exception propagates out of the async handler before any `setX` ran) and the
rate returned by `getUsdJpyRate` as `fx`.  The result pairs the component
state after the call with the propagated exception, if any. -/
def handleFile (parsed : Except String CalcJSON) (fx : ℚ) (st : AggState) :
    AggState × Option String :=
  match parsed with
  | .error e => (st, some e)
  | .ok json =>
    let services := json.services.getD []
    let serviceUsdRows : List Row := services.map fun s =>
      { name := jsTrim (s.serviceName.getD "（不明）")
        usd := toNumber s.monthlyCost
        jpy := 0 }
    let monthlyUsd₀ := toNumber json.totalMonthly
    let monthlyUsd :=
      if monthlyUsd₀ = 0 then serviceUsdRows.foldl (fun sum r => sum + r.usd) 0
      else monthlyUsd₀
    let withJpy := serviceUsdRows.map fun r => { r with jpy := r.usd * fx }
    ({ name := json.name.getD "（名称未設定）"
       rate := some fx
       totalUsd := some monthlyUsd
       totalJpy := some (monthlyUsd * fx)
       rows := withJpy
       raw := some json }, none)

/-- A whole upload run: parse, fetch the rate from the two sources, convert. -/
def runUpload (parsed : Except String CalcJSON) (a1 a2 : RateAttempt)
    (st : AggState) : AggState × Option String :=
  handleFile parsed (getUsdJpyRate a1 a2).1 st

/-! ### Substring helper (for "the notice text contains …") -/

/-- Predicate `leadsList t s`: `t` occurs at the start of `s`. -/
def leadsList : List Char → List Char → Bool
  | [], _ => true
  | _ :: _, [] => false
  | a :: as, b :: bs => a = b && leadsList as bs

/-- Predicate `hasSubList t s`: `t` occurs contiguously somewhere in `s`. -/
def hasSubList (t : List Char) : List Char → Bool
  | [] => leadsList t []
  | c :: rest => leadsList t (c :: rest) || hasSubList t rest

/-- Predicate `strHasSub s t`: the string `t` occurs contiguously in `s`. -/
def strHasSub (s t : String) : Bool :=
  hasSubList t.data s.data

/-! ## Theorems -/

/-! ### Matcher lemmas -/

theorem leadsList_eq_true : ∀ {t s : List Char},
    leadsList t s = true ↔ ∃ u, s = t ++ u := by
  intro t
  induction t with
  | nil => intro s; simp [leadsList]
  | cons a as ih =>
    intro s
    cases s with
    | nil =>
      simp [leadsList]
    | cons b bs =>
      simp only [leadsList, Bool.and_eq_true, decide_eq_true_eq, ih,
        List.cons_append, List.cons.injEq]
      constructor
      · rintro ⟨rfl, u, rfl⟩
        exact ⟨u, rfl, rfl⟩
      · rintro ⟨u, rfl, rfl⟩
        exact ⟨rfl, u, rfl⟩

theorem hasSubList_of_leadsList {t s : List Char} (h : leadsList t s = true) :
    hasSubList t s = true := by
  cases s with
  | nil => simpa [hasSubList] using h
  | cons c rest => simp [hasSubList, h]

theorem leadsList_self_append (t u : List Char) : leadsList t (t ++ u) = true :=
  leadsList_eq_true.mpr ⟨u, rfl⟩

theorem hasSubList_middle : ∀ (a t b : List Char),
    hasSubList t (a ++ (t ++ b)) = true := by
  intro a t b
  induction a with
  | nil => exact hasSubList_of_leadsList (leadsList_self_append t b)
  | cons x xs ih => simp [hasSubList, ih]

theorem strHasSub_middle (p e q : String) : strHasSub (p ++ e ++ q) e = true := by
  have h : (p ++ e ++ q).data = p.data ++ (e.data ++ q.data) := by
    simp [String.data_append]
  simpa [strHasSub, h] using hasSubList_middle p.data e.data q.data

theorem plusThen_eq_true {p : Char → Bool} {k : List Char → Bool} :
    ∀ {l : List Char}, plusThen p k l = true ↔
      ∃ a b, l = a ++ b ∧ a ≠ [] ∧ (∀ c ∈ a, p c = true) ∧ k b = true := by
  intro l
  induction l with
  | nil =>
    simp only [plusThen, Bool.false_eq_true, false_iff]
    rintro ⟨a, b, hab, ha, -, -⟩
    cases a with
    | nil => exact ha rfl
    | cons x xs => simp at hab
  | cons c rest ih =>
    simp only [plusThen, Bool.and_eq_true, Bool.or_eq_true]
    constructor
    · rintro ⟨hc, hk | hrest⟩
      · exact ⟨[c], rest, rfl, by simp, by simpa using hc, hk⟩
      · obtain ⟨a, b, rfl, ha, hall, hk⟩ := ih.mp hrest
        refine ⟨c :: a, b, rfl, by simp, ?_, hk⟩
        intro x hx
        rcases List.mem_cons.mp hx with rfl | hx
        · exact hc
        · exact hall x hx
    · rintro ⟨a, b, hab, ha, hall, hk⟩
      cases a with
      | nil => exact absurd rfl ha
      | cons a0 a' =>
        rw [List.cons_append] at hab
        injection hab with h1 h2
        subst h1
        subst h2
        refine ⟨hall c (List.mem_cons_self ..), ?_⟩
        cases a' with
        | nil => exact Or.inl (by simpa using hk)
        | cons y ys =>
          refine Or.inr (ih.mpr ⟨y :: ys, b, rfl, by simp, ?_, hk⟩)
          intro x hx
          exact hall x (List.mem_cons_of_mem _ hx)

theorem litThen_eq_true {a : Char} {k : List Char → Bool} :
    ∀ {l : List Char}, litThen a k l = true ↔ ∃ b, l = a :: b ∧ k b = true := by
  intro l
  cases l with
  | nil => simp [litThen]
  | cons c rest =>
    simp only [litThen, Bool.and_eq_true, decide_eq_true_eq]
    constructor
    · rintro ⟨rfl, hk⟩
      exact ⟨rest, rfl, hk⟩
    · rintro ⟨b, hb, hk⟩
      injection hb with h1 h2
      subst h1
      subst h2
      exact ⟨rfl, hk⟩

theorem emailCharOk_eq_true {c : Char} :
    emailCharOk c = true ↔ ¬(c = '@' ∨ jsWhitespace c = true) := by
  simp [emailCharOk, not_or]

theorem plusThenEnd_eq_true {p : Char → Bool} {b : List Char} :
    plusThen p List.isEmpty b = true ↔ b ≠ [] ∧ ∀ c ∈ b, p c = true := by
  rw [plusThen_eq_true]
  constructor
  · rintro ⟨a, b', rfl, ha, hall, hb'⟩
    have hb'' : b' = [] := by simpa using hb'
    subst hb''
    simpa using ⟨ha, hall⟩
  · rintro ⟨hb, hall⟩
    exact ⟨b, [], by simp, hb, hall, by simp⟩

theorem isValidEmail_eq_true {s : String} :
    isValidEmail s = true ↔
      ∃ l m t : List Char,
        s.data = l ++ '@' :: (m ++ '.' :: t) ∧
        l ≠ [] ∧ m ≠ [] ∧ t ≠ [] ∧
        (∀ c ∈ l, emailCharOk c = true) ∧ (∀ c ∈ m, emailCharOk c = true) ∧
        (∀ c ∈ t, emailCharOk c = true) := by
  unfold isValidEmail
  rw [plusThen_eq_true]
  constructor
  · rintro ⟨l, rest, hs, hl, halll, hk⟩
    rw [litThen_eq_true] at hk
    obtain ⟨rest2, rfl, hk2⟩ := hk
    rw [plusThen_eq_true] at hk2
    obtain ⟨m, rest3, rfl, hm, hallm, hk3⟩ := hk2
    rw [litThen_eq_true] at hk3
    obtain ⟨t, rfl, hk4⟩ := hk3
    rw [plusThenEnd_eq_true] at hk4
    exact ⟨l, m, t, hs, hl, hm, hk4.1, halll, hallm, hk4.2⟩
  · rintro ⟨l, m, t, hs, hl, hm, ht, halll, hallm, hallt⟩
    refine ⟨l, '@' :: (m ++ '.' :: t), hs, hl, halll, ?_⟩
    rw [litThen_eq_true]
    refine ⟨m ++ '.' :: t, rfl, ?_⟩
    rw [plusThen_eq_true]
    refine ⟨m, '.' :: t, rfl, hm, hallm, ?_⟩
    rw [litThen_eq_true]
    exact ⟨t, rfl, plusThenEnd_eq_true.mpr ⟨ht, hallt⟩⟩

/-! ### Claim theorems: validation -/

/-- C2: name validity holds iff the string has length between 3 and 32
inclusive and every character is an ASCII letter, an ASCII digit, or a
hyphen; all other strings fail (the regex is anchored, so no partial
match counts). -/
theorem isValidName_iff (s : String) :
    isValidName s = true ↔
      (3 ≤ s.length ∧ s.length ≤ 32 ∧
        ∀ c ∈ s.data,
          ('A' ≤ c ∧ c ≤ 'Z') ∨ ('a' ≤ c ∧ c ≤ 'z') ∨
          ('0' ≤ c ∧ c ≤ '9') ∨ c = '-') := by
  rw [show s.length = s.data.length from rfl]
  unfold isValidName
  simp only [Bool.and_eq_true, decide_eq_true_eq, List.all_eq_true]
  constructor
  · rintro ⟨⟨h3, h32⟩, hall⟩
    refine ⟨h3, h32, fun c hc => ?_⟩
    simpa [nameCharOk, or_assoc] using hall c hc
  · rintro ⟨h3, h32, hall⟩
    refine ⟨⟨h3, h32⟩, fun c hc => ?_⟩
    simpa [nameCharOk, or_assoc] using hall c hc

/-- C3: email validity holds iff the string splits as one or more
characters that are neither an at-sign nor JavaScript whitespace, then an
at-sign, then one or more such characters, then a dot, then one or more
such characters; in particular a string with no at-sign, or containing
whitespace, is invalid (a string whose at-sign is not followed by a
suitable dot never satisfies the split). -/
theorem isValidEmail_spec (s : String) :
    (isValidEmail s = true ↔
      ∃ l m t : List Char,
        s.data = l ++ '@' :: (m ++ '.' :: t) ∧
        l ≠ [] ∧ m ≠ [] ∧ t ≠ [] ∧
        (∀ c, (c ∈ l ∨ c ∈ m ∨ c ∈ t) → ¬(c = '@' ∨ jsWhitespace c = true))) ∧
    (('@' ∉ s.data) → isValidEmail s = false) ∧
    ((∃ c ∈ s.data, jsWhitespace c = true) → isValidEmail s = false) := by
  refine ⟨?_, ?_, ?_⟩
  · rw [isValidEmail_eq_true]
    constructor
    · rintro ⟨l, m, t, hs, hl, hm, ht, h1, h2, h3⟩
      refine ⟨l, m, t, hs, hl, hm, ht, ?_⟩
      rintro c (hc | hc | hc)
      · exact emailCharOk_eq_true.mp (h1 c hc)
      · exact emailCharOk_eq_true.mp (h2 c hc)
      · exact emailCharOk_eq_true.mp (h3 c hc)
    · rintro ⟨l, m, t, hs, hl, hm, ht, h⟩
      exact ⟨l, m, t, hs, hl, hm, ht,
        fun c hc => emailCharOk_eq_true.mpr (h c (Or.inl hc)),
        fun c hc => emailCharOk_eq_true.mpr (h c (Or.inr (Or.inl hc))),
        fun c hc => emailCharOk_eq_true.mpr (h c (Or.inr (Or.inr hc)))⟩
  · intro hat
    cases hb : isValidEmail s with
    | false => rfl
    | true =>
      obtain ⟨l, m, t, hs, -, -, -, -, -, -⟩ := isValidEmail_eq_true.mp hb
      exact absurd (show ('@' : Char) ∈ s.data by rw [hs]; simp) hat
  · rintro ⟨c, hc, hw⟩
    cases hb : isValidEmail s with
    | false => rfl
    | true =>
      obtain ⟨l, m, t, hs, -, -, -, h1, h2, h3⟩ := isValidEmail_eq_true.mp hb
      rw [hs] at hc
      rcases List.mem_append.mp hc with hc | hc
      · exact absurd (Or.inr hw) (emailCharOk_eq_true.mp (h1 c hc))
      · rcases List.mem_cons.mp hc with rfl | hc
        · exact absurd hw (by decide)
        · rcases List.mem_append.mp hc with hc | hc
          · exact absurd (Or.inr hw) (emailCharOk_eq_true.mp (h2 c hc))
          · rcases List.mem_cons.mp hc with rfl | hc
            · exact absurd hw (by decide)
            · exact absurd (Or.inr hw) (emailCharOk_eq_true.mp (h3 c hc))

/-! ### Claim theorems: submit handler -/

/-- C1: on a well-formed successful response (HTTP ok, parsed body with a
truthy ok field), the notice is a success notice whose text contains the
server-supplied executionId when one is present, and contains the marker
that JavaScript renders for a missing value ("undefined") when the body
carries no executionId; both input fields are reset to the empty string
and the in-flight flag is cleared. -/
theorem handleSubmit_success (url : String) (st : FormState) (data : RespData)
    (hv : isFormValid st = true) (hs : st.isSubmitting = false)
    (hu1 : ¬ url = "") (hu2 : ¬ url = PLACEHOLDER_URL_CHECK)
    (hok : data.ok = true) :
    (handleSubmit url (.response true (some data)) st).state.message =
      some { type := .success, text := successText data.executionId } ∧
    (∀ e, data.executionId = some e →
      strHasSub (successText data.executionId) e = true) ∧
    (data.executionId = none →
      strHasSub (successText data.executionId) "undefined" = true) ∧
    (handleSubmit url (.response true (some data)) st).state.instanceName = "" ∧
    (handleSubmit url (.response true (some data)) st).state.email = "" ∧
    (handleSubmit url (.response true (some data)) st).state.isSubmitting = false := by
  refine ⟨?_, ?_, ?_, ?_, ?_, ?_⟩ <;>
    first
      | simp [handleSubmit, hv, hs, hu1, hu2, hok]
      | skip
  · rintro e he
    rw [he]
    exact strHasSub_middle "✅ リクエストが正常に開始されました。承認ID: " e "。"
  · rintro he
    rw [he]
    exact strHasSub_middle "✅ リクエストが正常に開始されました。承認ID: " "undefined" "。"

/-- C1 witness: a concrete successful submit with executionId abc123. -/
theorem handleSubmit_success_witness :
    (handleSubmit "https://x" (.response true (some ⟨true, some "abc123", none⟩))
        ⟨"abc", "a@b.c", false, none⟩).state.message =
      some { type := .success, text := successText (some "abc123") } ∧
    (∀ e, (some "abc123" : Option String) = some e →
      strHasSub (successText (some "abc123")) e = true) ∧
    ((some "abc123" : Option String) = none →
      strHasSub (successText (some "abc123")) "undefined" = true) ∧
    (handleSubmit "https://x" (.response true (some ⟨true, some "abc123", none⟩))
        ⟨"abc", "a@b.c", false, none⟩).state.instanceName = "" ∧
    (handleSubmit "https://x" (.response true (some ⟨true, some "abc123", none⟩))
        ⟨"abc", "a@b.c", false, none⟩).state.email = "" ∧
    (handleSubmit "https://x" (.response true (some ⟨true, some "abc123", none⟩))
        ⟨"abc", "a@b.c", false, none⟩).state.isSubmitting = false :=
  handleSubmit_success "https://x" ⟨"abc", "a@b.c", false, none⟩
    ⟨true, some "abc123", none⟩ (by decide) rfl (by decide) (by decide) rfl

/-- C4: when the form is invalid or a submission is already in flight,
the handler returns at once: no request is sent, the state (fields,
flag and notice) is exactly the state before the call, for every
possible network behaviour. -/
theorem handleSubmit_guard (url : String) (outcome : FetchOutcome) (st : FormState)
    (h : isFormValid st = false ∨ st.isSubmitting = true) :
    handleSubmit url outcome st = { state := st, request := none, consoleErr := none } := by
  rcases h with h | h <;> simp [handleSubmit, h]

/-- C4 witness: an invalid name blocks the submit, and an in-flight
submit blocks a second one, each leaving the state untouched. -/
theorem handleSubmit_guard_witness :
    handleSubmit "https://x" (.netError "boom") ⟨"ab", "a@b.c", false, none⟩ =
      { state := ⟨"ab", "a@b.c", false, none⟩, request := none, consoleErr := none } ∧
    handleSubmit "https://x" (.netError "boom") ⟨"abc", "a@b.c", true, none⟩ =
      { state := ⟨"abc", "a@b.c", true, none⟩, request := none, consoleErr := none } :=
  ⟨handleSubmit_guard "https://x" (.netError "boom") ⟨"ab", "a@b.c", false, none⟩
      (Or.inl (by decide)),
   handleSubmit_guard "https://x" (.netError "boom") ⟨"abc", "a@b.c", true, none⟩
      (Or.inr rfl)⟩

/-- C5: with an empty or placeholder destination URL, a guarded submit
produces the configuration-error notice, sends no request whatever the
network would have done, and ends with the in-flight flag reset. -/
theorem handleSubmit_placeholder (url : String) (outcome : FetchOutcome) (st : FormState)
    (hv : isFormValid st = true) (hs : st.isSubmitting = false)
    (hu : url = "" ∨ url = PLACEHOLDER_URL_CHECK) :
    handleSubmit url outcome st =
      { state := { st with
          message := some { type := .error, text := configErrorText },
          isSubmitting := false },
        request := none, consoleErr := none } := by
  rcases hu with hu | hu <;> simp [handleSubmit, hv, hs, hu]

/-- C5 witness: the shipped constant LAMBDA_URL equals the sentinel, so a
valid submit against it yields the configuration error and no request. -/
theorem handleSubmit_placeholder_witness :
    handleSubmit LAMBDA_URL (.netError "boom") ⟨"abc", "a@b.c", false, none⟩ =
      { state := ⟨"abc", "a@b.c", false,
          some { type := .error, text := configErrorText }⟩,
        request := none, consoleErr := none } :=
  handleSubmit_placeholder LAMBDA_URL (.netError "boom") ⟨"abc", "a@b.c", false, none⟩
    (by decide) rfl (Or.inr rfl)

/-- C6 counterexample: on a transport failure whose exception reads
"Failed to fetch", the notice is the fixed network-error text, which does
not contain the exception's description. -/
theorem handleSubmit_netError_counterexample :
    (handleSubmit "https://example.com" (.netError "Failed to fetch")
        ⟨"abc", "a@b.c", false, none⟩).state.message =
      some { type := .error, text := networkErrorText } ∧
    strHasSub networkErrorText "Failed to fetch" = false := by
  constructor
  · rfl
  · decide

/-- C6 amended: on a transport failure, the handler emits the fixed
generic network-error notice, passes the exception only to the console,
sends the request that failed, and clears the in-flight flag. -/
theorem handleSubmit_netError (url desc : String) (st : FormState)
    (hv : isFormValid st = true) (hs : st.isSubmitting = false)
    (hu1 : ¬ url = "") (hu2 : ¬ url = PLACEHOLDER_URL_CHECK) :
    handleSubmit url (.netError desc) st =
      { state := { st with
          message := some { type := .error, text := networkErrorText },
          isSubmitting := false },
        request := some ⟨jsTrim st.instanceName, jsTrim st.email⟩,
        consoleErr := some desc } := by
  simp [handleSubmit, hv, hs, hu1, hu2]

/-- C6 amended witness: a concrete transport failure. -/
theorem handleSubmit_netError_witness :
    handleSubmit "https://x" (.netError "boom") ⟨"abc", "a@b.c", false, none⟩ =
      { state := ⟨"abc", "a@b.c", false,
          some { type := .error, text := networkErrorText }⟩,
        request := some ⟨"abc", "a@b.c"⟩,
        consoleErr := some "boom" } := by
  rw [handleSubmit_netError "https://x" "boom" ⟨"abc", "a@b.c", false, none⟩
    (by decide) rfl (by decide) (by decide)]
  decide

/-! ### Claim theorems: aggregator -/

/-- C7: the monetary coercion keeps exactly the digit, minus and dot
characters of the string rendering, numeric-parses the remainder, yields
zero on a missing value or an unparseable remainder, and is the one
coercion applied to every line item's monthly cost and to the top-level
total in handleFile. -/
theorem toNumber_coercion :
    (toNumber none = 0) ∧
    (∀ s : String, (stripNonAmount s).data =
      s.data.filter (fun c => c.isDigit || c = '-' || c = '.')) ∧
    (∀ s : String, jsStringToNumber (stripNonAmount s) = none → toNumber (some s) = 0) ∧
    (∀ (json : CalcJSON) (fx : ℚ) (st : AggState),
      ((handleFile (Except.ok json) fx st).1.rows.map Row.usd) =
        (json.services.getD []).map (fun s => toNumber s.monthlyCost)) ∧
    (∀ (json : CalcJSON) (fx : ℚ) (st : AggState),
      toNumber json.totalMonthly ≠ 0 →
        (handleFile (Except.ok json) fx st).1.totalUsd =
          some (toNumber json.totalMonthly)) := by
  refine ⟨rfl, ?_, ?_, ?_, ?_⟩
  · intro s
    unfold stripNonAmount
    refine congrArg String.data (congrArg String.mk ?_)
    apply List.filter_congr
    intro c _
    unfold amountCharOk
    cases h1 : c.isDigit <;> cases h2 : (decide (c = '-')) <;>
      cases h3 : (decide (c = '.')) <;> simp [h1, h2, h3]
  · intro s h
    simp [toNumber, h]
  · intro json fx st
    simp [handleFile, List.map_map]
  · intro json fx st h
    simp [handleFile, h]

/-- C7 witness: the coercion at concrete inputs, and handleFile applying
it to a concrete item cost and a concrete top-level total. -/
theorem toNumber_coercion_witness :
    jsStringToNumber (stripNonAmount "1.2.3") = none ∧
    toNumber (some "1.2.3") = 0 ∧
    ((handleFile (Except.ok ⟨none, some "$12.50", none⟩) 150
        ⟨"", none, none, none, [], none⟩).1.totalUsd =
      some (toNumber (some "$12.50"))) ∧
    ((handleFile (Except.ok ⟨none, none, some [⟨some "A", some "$5.00"⟩]⟩) 150
        ⟨"", none, none, none, [], none⟩).1.rows.map Row.usd =
      [(⟨some "A", some "$5.00"⟩ : ServiceItem)].map (fun s => toNumber s.monthlyCost)) := by
  refine ⟨by decide,
    toNumber_coercion.2.2.1 "1.2.3" (by decide),
    toNumber_coercion.2.2.2.2 ⟨none, some "$12.50", none⟩ 150
      ⟨"", none, none, none, [], none⟩ ?_,
    toNumber_coercion.2.2.2.1 ⟨none, none, some [⟨some "A", some "$5.00"⟩]⟩ 150
      ⟨"", none, none, none, [], none⟩⟩
  simp +decide [toNumber, stripNonAmount, jsStringToNumber, parseUnsigned,
    digitsValNat, amountCharOk]
  norm_num

/-- C8: when the top-level total coerces to zero, the computed total is
the sum of the coerced line-item costs. -/
theorem handleFile_total_fallback (json : CalcJSON) (fx : ℚ) (st : AggState)
    (h : toNumber json.totalMonthly = 0) :
    (handleFile (Except.ok json) fx st).1.totalUsd =
      some (((json.services.getD []).map fun s => toNumber s.monthlyCost).sum) := by
  simp only [handleFile, h, if_pos]
  rw [List.foldl_map, List.sum_eq_foldl, List.foldl_map]

/-- C8 witness: no top-level total and two items costing 3.00 and 4.00
give a computed total of 7.00. -/
theorem handleFile_total_fallback_witness :
    (handleFile
        (Except.ok ⟨none, none, some [⟨some "A", some "3.00"⟩, ⟨some "B", some "4.00"⟩]⟩)
        150 ⟨"", none, none, none, [], none⟩).1.totalUsd = some 7 := by
  rw [handleFile_total_fallback
    ⟨none, none, some [⟨some "A", some "3.00"⟩, ⟨some "B", some "4.00"⟩]⟩
    150 ⟨"", none, none, none, [], none⟩ rfl]
  simp +decide [toNumber, stripNonAmount, jsStringToNumber, parseUnsigned,
    digitsValNat, amountCharOk]
  norm_num

/-- C9 counterexample: a primary attempt whose extracted rate is the
non-positive value -1 is returned as a success with that degenerate
value, instead of counting as a failure (which, with the secondary also
failing, would have produced the 150 fallback and the diagnostic). -/
theorem getUsdJpyRate_negative_counterexample :
    getUsdJpyRate (RateAttempt.value (some (-1))) RateAttempt.netError = (-1, false) ∧
    getUsdJpyRate (RateAttempt.value (some (-1))) RateAttempt.netError ≠ (150, true) ∧
    (-1 : ℚ) ≤ 0 := by
  decide

/-- C9 amended: the primary source is tried first and the secondary only
after the primary attempt fails; an attempt with a network error, a
non-success HTTP status, an unparseable body, or a missing, NaN or zero
extracted rate counts as a failure, but a negative extracted rate is
accepted and returned as-is; when both attempts fail the fixed fallback
rate 150 is returned together with only the console diagnostic, and the
aggregation still completes without an error. -/
theorem getUsdJpyRate_order_fallback :
    (attemptRate RateAttempt.netError = none ∧
      attemptRate RateAttempt.httpFail = none ∧
      attemptRate RateAttempt.jsonError = none ∧
      attemptRate (RateAttempt.value none) = none ∧
      attemptRate (RateAttempt.value (some 0)) = none) ∧
    (∀ (q : ℚ) (a2 : RateAttempt), q ≠ 0 →
      getUsdJpyRate (RateAttempt.value (some q)) a2 = (q, false)) ∧
    (∀ (a1 a2 : RateAttempt) (q : ℚ), attemptRate a1 = none →
      attemptRate a2 = some q → getUsdJpyRate a1 a2 = (q, false)) ∧
    (∀ a1 a2 : RateAttempt, attemptRate a1 = none → attemptRate a2 = none →
      getUsdJpyRate a1 a2 = (150, true)) ∧
    (∀ (json : CalcJSON) (a1 a2 : RateAttempt) (st : AggState),
      (runUpload (Except.ok json) a1 a2 st).2 = none) := by
  refine ⟨by decide, ?_, ?_, ?_, ?_⟩
  · intro q a2 hq
    simp [getUsdJpyRate, attemptRate, hq]
  · intro a1 a2 q h1 h2
    simp [getUsdJpyRate, h1, h2]
  · intro a1 a2 h1 h2
    simp [getUsdJpyRate, h1, h2]
  · intro json a1 a2 st
    simp [runUpload, handleFile]

/-- C9 amended witness: a good secondary rescues a failing primary; a
double failure produces the fallback pair and a completed upload. -/
theorem getUsdJpyRate_order_fallback_witness :
    getUsdJpyRate (RateAttempt.value (some 7)) RateAttempt.netError = (7, false) ∧
    getUsdJpyRate RateAttempt.netError (RateAttempt.value (some 7)) = (7, false) ∧
    getUsdJpyRate RateAttempt.netError RateAttempt.httpFail = (150, true) ∧
    (runUpload (Except.ok ⟨none, none, none⟩) RateAttempt.netError RateAttempt.httpFail
      ⟨"", none, none, none, [], none⟩).2 = none :=
  ⟨getUsdJpyRate_order_fallback.2.1 7 RateAttempt.netError (by decide),
   getUsdJpyRate_order_fallback.2.2.1 RateAttempt.netError (RateAttempt.value (some 7)) 7
     rfl (by decide),
   getUsdJpyRate_order_fallback.2.2.2.1 RateAttempt.netError RateAttempt.httpFail rfl rfl,
   getUsdJpyRate_order_fallback.2.2.2.2 ⟨none, none, none⟩ RateAttempt.netError
     RateAttempt.httpFail ⟨"", none, none, none, [], none⟩⟩

/-- C10: when the uploaded text is not valid JSON, the handler rejects
with the parse exception and every piece of aggregator state (estimate
name, rate, totals, row set and the stored raw document) is exactly what
it was before the upload. -/
theorem handleFile_parse_error (e : String) (fx : ℚ) (st : AggState) :
    (handleFile (Except.error e) fx st).1.name = st.name ∧
    (handleFile (Except.error e) fx st).1.rate = st.rate ∧
    (handleFile (Except.error e) fx st).1.totalUsd = st.totalUsd ∧
    (handleFile (Except.error e) fx st).1.totalJpy = st.totalJpy ∧
    (handleFile (Except.error e) fx st).1.rows = st.rows ∧
    (handleFile (Except.error e) fx st).1.raw = st.raw ∧
    (handleFile (Except.error e) fx st).2 = some e :=
  ⟨rfl, rfl, rfl, rfl, rfl, rfl, rfl⟩
